import Mathlib

/-!
Verification of the tldr-rss core: the retrying feed fetcher (`getRSSFeed`),
the article scraper (`fetchNews`), the feed aggregator (`fetchFeeds`), and the
output writers (`writeRssFeed`, `writeHtmlFeed`), shallowly embedded from the
TypeScript sources in `src/news.ts`, `src/index.ts`, `src/rss.ts`, `src/html.ts`.
-/

namespace TldrRss

/-! ## String utilities mirroring JavaScript primitives -/

/-- Whether `pat` is a prefix of `s` (character lists, decidable by computation). -/
def isPrefixL : List Char → List Char → Bool
  | [], _ => true
  | _ :: _, [] => false
  | a :: as, b :: bs => a == b && isPrefixL as bs

/-- Whether `pat` occurs as a contiguous substring of `s` (character lists).
Mirrors JavaScript `String.prototype.includes`. -/
def containsL : List Char → List Char → Bool
  | [], pat => pat.isEmpty
  | s@(_ :: rest), pat => isPrefixL pat s || containsL rest pat

/-- JavaScript `s.includes(pat)`. -/
def containsSubstr (s pat : String) : Bool :=
  containsL s.toList pat.toList

/-- Value of a decimal digit list, most significant first. -/
def digitsToNat (ds : List Char) : Nat :=
  ds.foldl (fun a c => a * 10 + (c.toNat - '0'.toNat)) 0

/-- JavaScript `parseInt(s, 10)`: skip leading whitespace, optional sign, then
the longest prefix of decimal digits; `none` models `NaN` (no digits found). -/
def jsParseInt (s : String) : Option Int :=
  let cs := s.toList.dropWhile (fun c => c.isWhitespace)
  let signRest : Int × List Char :=
    match cs with
    | '-' :: r => (-1, r)
    | '+' :: r => (1, r)
    | _ => (1, cs)
  let ds := signRest.2.takeWhile (fun c => c.isDigit)
  if ds.isEmpty then none
  else some (signRest.1 * (digitsToNat ds : Int))

/-! ## Retrying feed fetcher (`getRSSFeed`, src/news.ts)

An error thrown by `parser.parseURL` is modelled by its observable shape: an
optional structured `response` (with optional `status` and optional `headers`
map), whether the thrown value is an `Error` instance, and its `message`. -/

/-- The optional `response` object attached to a fetch error. -/
structure ErrResponse where
  status : Option Int
  headers : Option (List (String × String))
deriving DecidableEq

/-- A value thrown by the underlying RSS parser. -/
structure FetchError where
  response : Option ErrResponse
  isErrorObj : Bool
  message : String
deriving DecidableEq

/-- `errorWithResponse?.response?.status === 429 || (error instanceof Error &&
error.message.includes("Status code 429"))` from src/news.ts. -/
def is429Error (e : FetchError) : Bool :=
  (e.response.bind ErrResponse.status == some 429) ||
    (e.isErrorObj && containsSubstr e.message "Status code 429")

/-- `errorWithResponse.response?.headers?.["retry-after"]` from src/news.ts. -/
def retryAfter (e : FetchError) : Option String :=
  (e.response.bind ErrResponse.headers).bind (fun hs => hs.lookup "retry-after")

/-- `retryAfter && !isNaN(parseInt(retryAfter, 10)) ? parseInt(retryAfter, 10) : 30`
from src/news.ts; an absent or empty header is falsy, a non-numeric one is `NaN`. -/
def delaySeconds (e : FetchError) : Int :=
  match retryAfter e with
  | none => 30
  | some s =>
    if s = "" then 30
    else
      match jsParseInt s with
      | some k => k
      | none => 30

/-- `const maxRetries = 6` from src/news.ts (6 retries + 1 initial = 7 attempts). -/
def maxRetries : Nat := 6

/-- Observable outcome of one run of `getRSSFeed`: the returned value or thrown
error, the number of underlying `parseURL` calls made, and the backoff waits
(in seconds) performed between attempts. -/
structure FetchRun (α : Type) where
  result : Except FetchError α
  attempts : Nat
  waits : List Int

/-- The `while (attemptCount <= maxRetries)` loop of `getRSSFeed`.
`outcomes k` is the result of the `(k+1)`-th `parser.parseURL` call; at each
loop entry the number of calls already made equals `attemptCount`, and the
loop guard `attemptCount ≤ maxRetries` is rendered by the fuel
`maxRetries + 1 - attemptCount` (the two are kept in sync by the caller).
`none` models the unreachable `throw new Error("Unexpected end of retry loop")`. -/
def getRSSFeedLoop {α : Type} (outcomes : Nat → Except FetchError α) :
    Nat → Nat → Option (FetchRun α)
  | 0, _ => none
  | fuel + 1, attemptCount =>
    match outcomes attemptCount with
    | .ok feed => some { result := .ok feed, attempts := attemptCount + 1, waits := [] }
    | .error e =>
      if is429Error e = false ∨ attemptCount + 1 > maxRetries then
        some { result := .error e, attempts := attemptCount + 1, waits := [] }
      else
        (getRSSFeedLoop outcomes fuel (attemptCount + 1)).map
          (fun rest => { rest with waits := delaySeconds e :: rest.waits })

/-- `getRSSFeed` from src/news.ts, as a function of the sequence of outcomes
the underlying parser would produce on successive calls. -/
def getRSSFeed {α : Type} (outcomes : Nat → Except FetchError α) : Option (FetchRun α) :=
  getRSSFeedLoop outcomes (maxRetries + 1) 0

/-! ### Concrete fetch scenarios (witness data) -/

/-- A 429 error with structured status and a `retry-after: 1` hint. -/
def err429W : FetchError := ⟨some ⟨some 429, some [("retry-after", "1")]⟩, true, "Too Many Requests"⟩

/-- A plain 404 error. -/
def err404W : FetchError := ⟨some ⟨some 404, none⟩, true, "Not Found"⟩

/-- A message-only 429 error, as thrown by parsers that discard the response. -/
def errMsgW : FetchError := ⟨none, true, "Status code 429"⟩

/-- A 429 error with a non-numeric `retry-after` hint. -/
def errBadHintW : FetchError := ⟨some ⟨some 429, some [("retry-after", "soon")]⟩, true, "Too Many Requests"⟩

/-- One 429 failure, then success. -/
def outcomesA : Nat → Except FetchError Nat := fun k => if k = 0 then .error err429W else .ok 7

/-- Persistent message-only 429 failures. -/
def outcomesB : Nat → Except FetchError Nat := fun _ => .error errMsgW

/-- An immediate 404 failure. -/
def outcomesC : Nat → Except FetchError Nat := fun _ => .error err404W

/-! ## Lookback window (`MAX_DAYS`, src/index.ts) -/

/-- `const MAX_DAYS = parseInt(process.env.MAX_DAYS || "10", 10)` from
src/index.ts; the environment variable is `none` when unset, and the empty
string is falsy. `none` in the result models `NaN`. -/
def MAX_DAYS (envMaxDays : Option String) : Option Int :=
  jsParseInt (match envMaxDays with
    | none => "10"
    | some s => if s = "" then "10" else s)

/-! ## Feed aggregator (`fetchFeeds`, src/index.ts)

JavaScript `Date` parsing is a platform primitive; it is modelled by a
parameter `pd : String → Option Int` giving the epoch timestamp of a date
string (`none` for `Invalid Date`, whose numeric value is `NaN`). -/

/-- An item of a parsed feed, as consumed by `fetchFeeds` (src/index.ts). -/
structure FeedItem where
  link : Option String
  isoDate : Option String
deriving DecidableEq

/-- A scraped article (`News` from src/types.ts). -/
structure News where
  title : String
  link : String
  content : String
deriving DecidableEq

/-- `NewsWithDate = News & { date: string }` from src/index.ts (also the
`Post` shape of src/rss.ts and src/html.ts). -/
structure NewsWithDate where
  title : String
  link : String
  content : String
  date : String
deriving DecidableEq

/-- The date filter of src/index.ts:
`if (!item.isoDate) return false; const itemDate = new Date(item.isoDate);
return itemDate >= cutoffDate;` — a missing or empty `isoDate` is falsy, and
an unparseable date gives `NaN >= cutoffDate`, which is false. -/
def keepItem (pd : String → Option Int) (cutoffDate : Int) (item : FeedItem) : Bool :=
  match item.isoDate with
  | none => false
  | some s =>
    if s = "" then false
    else
      match pd s with
      | none => false
      | some t => decide (cutoffDate ≤ t)

/-- `const recentItems = rssNews.items.filter(...)` from src/index.ts. -/
def recentItems (pd : String → Option Int) (cutoffDate : Int)
    (items : List FeedItem) : List FeedItem :=
  items.filter (keepItem pd cutoffDate)

/-- The body of the per-item loop of src/index.ts: when
`item.link && item.isoDate` is truthy, scrape the item's link and stamp every
scraped article with the item's date; otherwise contribute nothing. -/
def itemArticles (scrape : String → List News) (item : FeedItem) : List NewsWithDate :=
  match item.link, item.isoDate with
  | some l, some d =>
    if l = "" ∨ d = "" then []
    else (scrape l).map (fun n => ⟨n.title, n.link, n.content, d⟩)
  | _, _ => []

/-- The `for (const item of recentItems)` loop of src/index.ts, with `acc`
the articles pushed onto `feedNews` so far. -/
def feedNewsLoop (scrape : String → List News) :
    List FeedItem → List NewsWithDate → List NewsWithDate
  | [], acc => acc
  | item :: rest, acc => feedNewsLoop scrape rest (acc ++ itemArticles scrape item)

/-- One topic's `feedNews` list as built by src/index.ts before the write
steps: date-filter the feed's items, then scrape each surviving item in order. -/
def processTopic (pd : String → Option Int) (cutoffDate : Int)
    (scrape : String → List News) (items : List FeedItem) : List NewsWithDate :=
  feedNewsLoop scrape (recentItems pd cutoffDate items) []

/-! ## Output writers (`writeRssFeed` src/rss.ts, `writeHtmlFeed` src/html.ts) -/

/-- The comparator `(first, second) => new Date(second.date).getTime() -
new Date(first.date).getTime()` of src/rss.ts and src/html.ts, rendered as the
relation "`a` may be placed before `b`" (comparator value ≤ 0; a `NaN`
comparator value is treated as 0 per the ECMAScript sort specification). -/
def sortLe (pd : String → Option Int) (a b : NewsWithDate) : Bool :=
  match pd a.date, pd b.date with
  | some ta, some tb => decide (tb ≤ ta)
  | _, _ => true

/-- Stable insertion of an element into an already-sorted list. -/
def jsSortInsert (le : NewsWithDate → NewsWithDate → Bool) (a : NewsWithDate) :
    List NewsWithDate → List NewsWithDate
  | [] => [a]
  | b :: bs => if le a b then a :: b :: bs else b :: jsSortInsert le a bs

/-- `Array.prototype.sort` (stable per ES2019), as a stable insertion sort;
the sort happens in place, mutating the caller's array. -/
def jsSort (le : NewsWithDate → NewsWithDate → Bool) : List NewsWithDate → List NewsWithDate
  | [] => []
  | a :: rest => jsSortInsert le a (jsSort le rest)

/-- `buildFeed` from src/rss.ts restricted to its data content: it sorts
`posts` by date, newest first (`posts.sort` mutates the caller's array), and
renders one feed item per post in that order; the XML templating of each item
is outside the verified core. -/
def buildFeed (pd : String → Option Int) (posts : List NewsWithDate) : List NewsWithDate :=
  jsSort (sortLe pd) posts

/-- `writeRssFeed` from src/rss.ts, as its observable contract: an
`Error("No posts found for " + feedName)` on an empty post list (so no file is
written), otherwise the output file path and the ordered item data that the
XML templating renders into it. -/
def writeRssFeed (pd : String → Option Int) (feedName : String)
    (posts : List NewsWithDate) : Except String (String × List NewsWithDate) :=
  if posts.length = 0 then .error ("No posts found for " ++ feedName)
  else .ok ("./static/" ++ feedName ++ ".rss", buildFeed pd posts)

/-- `writeHtmlFeed` from src/html.ts, as its observable contract: an
`Error("No posts found for " + feedName)` on an empty post list (so no file is
written), otherwise the output file path and the sorted, truncated article
list the HTML templating renders into it. -/
def writeHtmlFeed (pd : String → Option Int) (feedName : String)
    (posts : List NewsWithDate) (maxArticles : Nat) :
    Except String (String × List NewsWithDate) :=
  if posts.length = 0 then .error ("No posts found for " ++ feedName)
  else .ok ("./static/" ++ feedName ++ ".html", (jsSort (sortLe pd) posts).take maxArticles)

/-- The `for (const feedName of feeds)` loop of `fetchFeeds` (src/index.ts).
`getFeedItems name` is the item list of the already-fetched feed of a topic.
`posts.sort` inside each writer mutates the caller's `feedNews` array in
place, so the list pushed onto `dateWithNews` is the sorted one: after
`writeRssFeed` the array is `jsSort`ed, and after `writeHtmlFeed` it is
`jsSort`ed again. A writer error aborts the run. -/
def fetchFeedsLoop (pd : String → Option Int) (cutoffDate : Int)
    (scrape : String → List News) (getFeedItems : String → List FeedItem) :
    List String → List NewsWithDate → Except String (List NewsWithDate)
  | [], dateWithNews => .ok dateWithNews
  | feedName :: rest, dateWithNews =>
    match writeRssFeed pd feedName (processTopic pd cutoffDate scrape (getFeedItems feedName)) with
    | .error msg => .error msg
    | .ok _ =>
      match writeHtmlFeed pd feedName
          (jsSort (sortLe pd) (processTopic pd cutoffDate scrape (getFeedItems feedName))) 50 with
      | .error msg => .error msg
      | .ok _ =>
        fetchFeedsLoop pd cutoffDate scrape getFeedItems rest
          (dateWithNews ++ jsSort (sortLe pd)
            (jsSort (sortLe pd) (processTopic pd cutoffDate scrape (getFeedItems feedName))))

/-- `fetchFeeds` (src/index.ts) up to the final combined write: the
`dateWithNews` list handed to `writeRssFeed("feed", dateWithNews)` after all
topics complete, or the error that aborted the run. -/
def fetchFeeds (pd : String → Option Int) (cutoffDate : Int)
    (scrape : String → List News) (getFeedItems : String → List FeedItem)
    (feeds : List String) : Except String (List NewsWithDate) :=
  fetchFeedsLoop pd cutoffDate scrape getFeedItems feeds []

/-- Spec-side predicate for claim C6: the item has a parseable publish date on
or after the cutoff. -/
def specKeep (pd : String → Option Int) (cutoffDate : Int) (item : FeedItem) : Bool :=
  match item.isoDate with
  | none => false
  | some s =>
    match pd s with
    | none => false
    | some t => decide (cutoffDate ≤ t)

/-- Spec-side combined feed for claim C5: the concatenation of every topic's
result list in topic-then-item (appended) order. -/
def specCombined (pd : String → Option Int) (cutoffDate : Int)
    (scrape : String → List News) (getFeedItems : String → List FeedItem)
    (feeds : List String) : List NewsWithDate :=
  (feeds.map (fun feedName => processTopic pd cutoffDate scrape (getFeedItems feedName))).flatten

/-! ## Article scraper (`fetchNews`, src/news.ts)

The parsed page (`new JSDOM(...)`) is modelled as a DOM tree of element and
text nodes. -/

mutual
/-- A DOM node: an element with its tag name, attributes and children, or a
text node. -/
inductive Dom where
  | elem (tag : String) (attrs : List (String × String)) (children : DomList)
  | txt (s : String)
/-- A list of sibling DOM nodes. -/
inductive DomList where
  | nil
  | cons (d : Dom) (ds : DomList)
end

mutual
/-- `Node.textContent`: the concatenated text of all descendants (a string,
never null, for element nodes). -/
def textContent : Dom → String
  | .elem _ _ cs => textContentList cs
  | .txt s => s
/-- Concatenated text content of a sibling list. -/
def textContentList : DomList → String
  | .nil => ""
  | .cons c cs => textContent c ++ textContentList cs
end

/-- `Element.getAttribute(name)`: `none` models `null` (attribute absent or
called on a non-element). -/
def getAttr (name : String) : Dom → Option String
  | .elem _ attrs _ => attrs.lookup name
  | .txt _ => none

mutual
/-- The first `div` element, in pre-order, among a node and its descendants. -/
def firstDiv : Dom → Option Dom
  | d@(.elem tag _ cs) => if tag = "div" then some d else firstDivList cs
  | .txt _ => none
/-- The first `div` element, in pre-order, within a sibling forest. -/
def firstDivList : DomList → Option Dom
  | .nil => none
  | .cons c cs =>
    match firstDiv c with
    | some d => some d
    | none => firstDivList cs
end

/-- `element.querySelector("div")`: the first `div` among the element's strict
descendants, in document order. -/
def querySelectorDiv : Dom → Option Dom
  | .elem _ _ cs => firstDivList cs
  | .txt _ => none

/-- A level-3 heading candidate: the `h3` node together with its parent and
grandparent elements (absent at the top of the tree). -/
structure H3Cand where
  node : Dom
  parent : Option Dom
  gparent : Option Dom

mutual
/-- `doc.querySelectorAll("h3")` in document (pre-)order, retaining each
heading's parent and grandparent elements. -/
def collectH3 : Option Dom → Option Dom → Dom → List H3Cand
  | parent, gparent, d@(.elem tag _ cs) =>
    (if tag = "h3" then [⟨d, parent, gparent⟩] else []) ++ collectH3List (some d) parent cs
  | _, _, .txt _ => []
/-- `collectH3` over a sibling forest. -/
def collectH3List : Option Dom → Option Dom → DomList → List H3Cand
  | _, _, .nil => []
  | parent, gparent, .cons c cs =>
    collectH3 parent gparent c ++ collectH3List parent gparent cs
end

/-- JavaScript truthiness of a nullable string: `null`/`undefined` and the
empty string are falsy. -/
def truthy : Option String → Option String
  | none => none
  | some s => if s = "" then none else some s

/-- The header-loop body of `fetchNews` (src/news.ts), per candidate: the
title is the heading's text content, the link is
`header.parentElement?.getAttribute("href")`, the content is the text of the
first `div` under the grandparent element; a candidate with any falsy field
yields no article. -/
def extractArticle (c : H3Cand) : Option News :=
  (truthy (some (textContent c.node))).bind fun t =>
    (truthy (c.parent.bind (getAttr "href"))).bind fun l =>
      (truthy ((c.gparent.bind querySelectorDiv).map textContent)).map fun co =>
        ⟨t, l, co⟩

/-- The `for (const header of headers.values())` loop of `fetchNews`
(src/news.ts), with `acc` the articles pushed so far:
`if (!title || !link || !content) continue` else push `{title, link, content}`. -/
def fetchNewsLoop : List H3Cand → List News → List News
  | [], acc => acc
  | c :: cs, acc =>
    if textContent c.node = "" ∨ c.parent.bind (getAttr "href") = none ∨
        c.parent.bind (getAttr "href") = some "" ∨
        (c.gparent.bind querySelectorDiv).map textContent = none ∨
        (c.gparent.bind querySelectorDiv).map textContent = some "" then
      fetchNewsLoop cs acc
    else
      fetchNewsLoop cs (acc ++ [⟨textContent c.node,
        (c.parent.bind (getAttr "href")).getD "",
        ((c.gparent.bind querySelectorDiv).map textContent).getD ""⟩])

/-- `fetchNews` from src/news.ts: any failure of the page download or parse is
caught and converted to `[]`; otherwise one article per level-3 heading whose
three fields are all truthy, in document order. -/
def fetchNews (page : Except String Dom) : List News :=
  match page with
  | .error _ => []
  | .ok doc => fetchNewsLoop (collectH3 none none doc) []

/-! ### Concrete aggregator and scraper scenarios (witness data) -/

/-- A concrete date-parse function for witnesses: dates are epoch integers
written in decimal, anything else is unparseable. -/
def pdW : String → Option Int := jsParseInt

/-- Two feed items whose dates are in ascending (oldest-first) order. -/
def itemsW : List FeedItem := [⟨some "a", some "1"⟩, ⟨some "b", some "2"⟩]

/-- A scraper stub returning one article per page. -/
def scrapeW : String → List News := fun l => [⟨"T" ++ l, l, "C"⟩]

/-- A feed table serving `itemsW` for every topic. -/
def getFeedItemsW : String → List FeedItem := fun _ => itemsW

/-- The combined list actually handed to the final write for `itemsW`:
date-descending within the topic. -/
def combinedW : List NewsWithDate := [⟨"Tb", "b", "C", "2"⟩, ⟨"Ta", "a", "C", "1"⟩]

/-- A feed item with a recent, parseable date but no link. -/
def itemNoLinkW : FeedItem := ⟨none, some "1"⟩

/-- Items aged 2, 10 and 5 days (dates written as negative epoch offsets),
plus one with an unparseable date. -/
def itemsAgeW : List FeedItem :=
  [⟨some "u1", some "-2"⟩, ⟨some "u2", some "-10"⟩,
   ⟨some "u3", some "-5"⟩, ⟨some "u4", some "invalid"⟩]

/-- A listing page with one complete candidate (title `T1`, parent href `L1`,
a `div` with text `C1` under the grandparent) and one candidate whose parent
lacks an `href`. -/
def docW : Dom :=
  .elem "html" [] (.cons
    (.elem "section" [] (.cons
      (.elem "a" [("href", "L1")]
        (.cons (.elem "h3" [] (.cons (.txt "T1") .nil)) .nil))
      (.cons (.elem "div" [] (.cons (.txt "C1") .nil)) .nil)))
    (.cons
      (.elem "a" []
        (.cons (.elem "h3" [] (.cons (.txt "T2") .nil)) .nil))
      .nil))

/-! ### Lemmas about the retry loop -/

/-- One-step unfolding of the retry loop. -/
theorem getRSSFeedLoop_succ {α : Type} (o : Nat → Except FetchError α) (fuel ac : Nat) :
    getRSSFeedLoop o (fuel + 1) ac =
      match o ac with
      | .ok feed => some ⟨.ok feed, ac + 1, []⟩
      | .error e =>
        if is429Error e = false ∨ ac + 1 > maxRetries then some ⟨.error e, ac + 1, []⟩
        else (getRSSFeedLoop o fuel (ac + 1)).map
          (fun rest => ⟨rest.result, rest.attempts, delaySeconds e :: rest.waits⟩) := rfl

/-- Unfolding of the retry loop when the current attempt succeeds. -/
theorem getRSSFeedLoop_ok {α : Type} (o : Nat → Except FetchError α) (fuel ac : Nat)
    (feed : α) (h : o ac = .ok feed) :
    getRSSFeedLoop o (fuel + 1) ac = some ⟨.ok feed, ac + 1, []⟩ := by
  rw [getRSSFeedLoop_succ, h]

/-- Unfolding of the retry loop when the current attempt fails. -/
theorem getRSSFeedLoop_err {α : Type} (o : Nat → Except FetchError α) (fuel ac : Nat)
    (e : FetchError) (h : o ac = .error e) :
    getRSSFeedLoop o (fuel + 1) ac =
      if is429Error e = false ∨ ac + 1 > maxRetries then some ⟨.error e, ac + 1, []⟩
      else (getRSSFeedLoop o fuel (ac + 1)).map
        (fun rest => ⟨rest.result, rest.attempts, delaySeconds e :: rest.waits⟩) := by
  rw [getRSSFeedLoop_succ, h]

/-- If attempts `ac, …, n-1` all fail with detected rate limits and attempt `n`
(0-based) succeeds within the budget, the loop returns the success, having made
`n + 1` calls in total and waited `delaySeconds` after each failed attempt. -/
theorem getRSSFeedLoop_success {α : Type} (o : Nat → Except FetchError α)
    (es : Nat → FetchError) (n : Nat) (feed : α) :
    ∀ fuel ac, fuel + ac = maxRetries + 1 → ac ≤ n → n ≤ maxRetries →
      (∀ k, ac ≤ k → k < n → o k = .error (es k) ∧ is429Error (es k) = true) →
      o n = .ok feed →
      getRSSFeedLoop o fuel ac =
        some ⟨.ok feed, n + 1, (List.range' ac (n - ac)).map fun k => delaySeconds (es k)⟩ := by
  intro fuel
  induction fuel with
  | zero =>
    intro ac hsum hac hn _ _
    exfalso
    have hm : maxRetries = 6 := rfl
    omega
  | succ f ih =>
    intro ac hsum hac hn herr hok
    by_cases hacn : ac = n
    · subst hacn
      rw [getRSSFeedLoop_ok o f ac feed hok]
      simp
    · have hlt : ac < n := lt_of_le_of_ne hac hacn
      obtain ⟨he, h429⟩ := herr ac le_rfl hlt
      have hm : maxRetries = 6 := rfl
      have hcond : ¬(is429Error (es ac) = false ∨ ac + 1 > maxRetries) := by
        rw [h429]
        simp only [Bool.true_eq_false, false_or, not_lt]
        omega
      rw [getRSSFeedLoop_err o f ac _ he, if_neg hcond]
      rw [ih (ac + 1) (by omega) (by omega) hn
        (fun k hk1 hk2 => herr k (by omega) hk2) hok]
      have hrange : List.range' ac (n - ac) = ac :: List.range' (ac + 1) (n - (ac + 1)) := by
        have h1 : n - ac = (n - (ac + 1)) + 1 := by omega
        rw [h1, List.range'_succ]
      rw [hrange]
      simp

/-- If every attempt within the budget fails with a detected rate limit, the
loop rethrows the last error after exactly `maxRetries + 1 = 7` calls. -/
theorem getRSSFeedLoop_exhaust {α : Type} (o : Nat → Except FetchError α)
    (es : Nat → FetchError) :
    ∀ fuel ac, fuel + ac = maxRetries + 1 → ac ≤ maxRetries →
      (∀ k, ac ≤ k → k ≤ maxRetries → o k = .error (es k) ∧ is429Error (es k) = true) →
      getRSSFeedLoop o fuel ac =
        some ⟨.error (es maxRetries), maxRetries + 1,
          (List.range' ac (maxRetries - ac)).map fun k => delaySeconds (es k)⟩ := by
  intro fuel
  induction fuel with
  | zero =>
    intro ac hsum hac _
    exfalso
    have hm : maxRetries = 6 := rfl
    omega
  | succ f ih =>
    intro ac hsum hac herr
    obtain ⟨he, h429⟩ := herr ac le_rfl hac
    have hm : maxRetries = 6 := rfl
    by_cases hend : ac = maxRetries
    · subst hend
      have hcond : is429Error (es maxRetries) = false ∨ maxRetries + 1 > maxRetries :=
        Or.inr (by omega)
      rw [getRSSFeedLoop_err o f maxRetries _ he, if_pos hcond]
      simp
    · have hlt : ac < maxRetries := lt_of_le_of_ne hac hend
      have hcond : ¬(is429Error (es ac) = false ∨ ac + 1 > maxRetries) := by
        rw [h429]
        simp only [Bool.true_eq_false, false_or, not_lt]
        omega
      rw [getRSSFeedLoop_err o f ac _ he, if_neg hcond]
      rw [ih (ac + 1) (by omega) (by omega)
        (fun k hk1 hk2 => herr k (by omega) hk2)]
      have hrange : List.range' ac (maxRetries - ac) =
          ac :: List.range' (ac + 1) (maxRetries - (ac + 1)) := by
        have h1 : maxRetries - ac = (maxRetries - (ac + 1)) + 1 := by omega
        rw [h1, List.range'_succ]
      rw [hrange]
      simp

/-- The loop only inspects outcomes of attempts within the budget. -/
theorem getRSSFeedLoop_congr {α : Type} (o o' : Nat → Except FetchError α) :
    ∀ fuel ac, fuel + ac = maxRetries + 1 →
      (∀ k, ac ≤ k → k ≤ maxRetries → o k = o' k) →
      getRSSFeedLoop o fuel ac = getRSSFeedLoop o' fuel ac := by
  intro fuel
  induction fuel with
  | zero => intro ac _ _; rfl
  | succ f ih =>
    intro ac hsum hagree
    have hm : maxRetries = 6 := rfl
    have hoa : o ac = o' ac := hagree ac le_rfl (by omega)
    cases ho : o' ac with
    | ok feed =>
      rw [getRSSFeedLoop_ok o f ac feed (hoa.trans ho),
        getRSSFeedLoop_ok o' f ac feed ho]
    | error e =>
      rw [getRSSFeedLoop_err o f ac e (hoa.trans ho),
        getRSSFeedLoop_err o' f ac e ho,
        ih (ac + 1) (by omega) (fun k hk1 hk2 => hagree k (by omega) hk2)]

/-- Started within the budget, the loop always terminates with a run record
whose attempt count exceeds the attempts already made. -/
theorem getRSSFeedLoop_isSome {α : Type} (o : Nat → Except FetchError α) :
    ∀ fuel ac, fuel + ac = maxRetries + 1 → ac ≤ maxRetries →
      ∃ r, getRSSFeedLoop o fuel ac = some r ∧ ac + 1 ≤ r.attempts := by
  intro fuel
  induction fuel with
  | zero =>
    intro ac hsum hac
    exfalso
    have hm : maxRetries = 6 := rfl
    omega
  | succ f ih =>
    intro ac hsum hac
    cases ho : o ac with
    | ok feed => exact ⟨_, getRSSFeedLoop_ok o f ac feed ho, le_rfl⟩
    | error e =>
      rw [getRSSFeedLoop_err o f ac e ho]
      by_cases hcond : is429Error e = false ∨ ac + 1 > maxRetries
      · rw [if_pos hcond]
        exact ⟨_, rfl, le_rfl⟩
      · rw [if_neg hcond]
        have hm : maxRetries = 6 := rfl
        have hac1 : ac + 1 ≤ maxRetries := by
          rcases not_or.mp hcond with ⟨_, h2⟩
          omega
        obtain ⟨rest, hrest, hatt⟩ := ih (ac + 1) (by omega) hac1
        exact ⟨_, by rw [hrest]; rfl, by simpa using Nat.le_of_succ_le hatt⟩

/-! ### Claim theorems for the retrying feed fetcher -/

/-- Claim C1: if the first `n ≤ 6` attempts fail with detected 429 errors and
attempt `n+1` succeeds, `getRSSFeed` returns the successful parse result after
exactly `n + 1` underlying attempts; if all 7 attempts fail with 429,
`getRSSFeed` propagates the last underlying error after exactly 7 attempts,
and no 8th attempt is made (the run is unchanged under any modification of
outcomes beyond the 7th attempt). -/
theorem getRSSFeed_retry_budget {α : Type} :
    (∀ (outcomes : Nat → Except FetchError α) (es : Nat → FetchError) (n : Nat) (feed : α),
      n ≤ maxRetries →
      (∀ k, k < n → outcomes k = .error (es k) ∧ is429Error (es k) = true) →
      outcomes n = .ok feed →
      getRSSFeed outcomes =
        some ⟨.ok feed, n + 1, (List.range' 0 n).map fun k => delaySeconds (es k)⟩) ∧
    (∀ (outcomes : Nat → Except FetchError α) (es : Nat → FetchError),
      (∀ k, k ≤ maxRetries → outcomes k = .error (es k) ∧ is429Error (es k) = true) →
      getRSSFeed outcomes =
        some ⟨.error (es maxRetries), maxRetries + 1,
          (List.range' 0 maxRetries).map fun k => delaySeconds (es k)⟩ ∧
      ∀ outcomes' : Nat → Except FetchError α,
        (∀ k, k ≤ maxRetries → outcomes' k = outcomes k) →
        getRSSFeed outcomes' = getRSSFeed outcomes) := by
  refine ⟨fun outcomes es n feed hn herr hok => ?_, fun outcomes es herr => ⟨?_, ?_⟩⟩
  · have h := getRSSFeedLoop_success outcomes es n feed (maxRetries + 1) 0
      (by omega) (Nat.zero_le n) hn (fun k _ hk2 => herr k hk2) hok
    simpa [getRSSFeed] using h
  · have h := getRSSFeedLoop_exhaust outcomes es (maxRetries + 1) 0
      (by omega) (Nat.zero_le _) (fun k _ hk2 => herr k hk2)
    simpa [getRSSFeed] using h
  · intro outcomes' hagree
    exact getRSSFeedLoop_congr outcomes' outcomes (maxRetries + 1) 0 (by omega)
      (fun k _ hk2 => hagree k hk2)

/-- Claim C2: a failed attempt is retried iff the error is a detected
rate-limit signal (structured status 429, or — for `Error` instances — a
message containing `"Status code 429"`); any other failure propagates on its
first occurrence with exactly 1 attempt. -/
theorem getRSSFeed_retry_iff_429 {α : Type} :
    (∀ (outcomes : Nat → Except FetchError α) (e : FetchError),
      outcomes 0 = .error e → is429Error e = false →
      getRSSFeed outcomes = some ⟨.error e, 1, []⟩) ∧
    (∀ (outcomes : Nat → Except FetchError α) (e : FetchError),
      outcomes 0 = .error e → is429Error e = true →
      ∃ r, getRSSFeed outcomes = some r ∧ 2 ≤ r.attempts) ∧
    (∀ e : FetchError,
      is429Error e = true ↔
        (e.response.bind ErrResponse.status = some 429 ∨
          (e.isErrorObj = true ∧ containsSubstr e.message "Status code 429" = true))) := by
  refine ⟨fun outcomes e h0 h429 => ?_, fun outcomes e h0 h429 => ?_, fun e => ?_⟩
  · show getRSSFeedLoop outcomes (maxRetries + 1) 0 = _
    rw [getRSSFeedLoop_err outcomes maxRetries 0 e h0, if_pos (Or.inl h429)]
  · show ∃ r, getRSSFeedLoop outcomes (maxRetries + 1) 0 = some r ∧ 2 ≤ r.attempts
    rw [getRSSFeedLoop_err outcomes maxRetries 0 e h0]
    have hm : maxRetries = 6 := rfl
    have hcond : ¬(is429Error e = false ∨ 0 + 1 > maxRetries) := by
      rw [h429]
      simp only [Bool.true_eq_false, false_or, not_lt]
      omega
    rw [if_neg hcond]
    obtain ⟨rest, hrest, hatt⟩ := getRSSFeedLoop_isSome outcomes maxRetries 1
      (by omega) (by omega)
    exact ⟨_, by rw [hrest]; rfl, by simpa using hatt⟩
  · simp [is429Error]

/-- Claim C3: every retried rate-limit failure is followed by a wait of
`delaySeconds`, which is the integer value of the `retry-after` header when
present and parseable, and 30 seconds otherwise. -/
theorem getRSSFeed_backoff_duration {α : Type} :
    (∀ (outcomes : Nat → Except FetchError α) (e : FetchError),
      outcomes 0 = .error e → is429Error e = true →
      ∃ r rest, getRSSFeed outcomes = some r ∧ r.waits = delaySeconds e :: rest) ∧
    (∀ (e : FetchError) (s : String) (k : Int),
      retryAfter e = some s → jsParseInt s = some k → delaySeconds e = k) ∧
    (∀ e : FetchError, retryAfter e = none → delaySeconds e = 30) ∧
    (∀ (e : FetchError) (s : String),
      retryAfter e = some s → jsParseInt s = none → delaySeconds e = 30) := by
  refine ⟨fun outcomes e h0 h429 => ?_, fun e s k hra hpi => ?_,
    fun e hra => ?_, fun e s hra hpi => ?_⟩
  · show ∃ r rest, getRSSFeedLoop outcomes (maxRetries + 1) 0 = some r ∧
      r.waits = delaySeconds e :: rest
    rw [getRSSFeedLoop_err outcomes maxRetries 0 e h0]
    have hm : maxRetries = 6 := rfl
    have hcond : ¬(is429Error e = false ∨ 0 + 1 > maxRetries) := by
      rw [h429]
      simp only [Bool.true_eq_false, false_or, not_lt]
      omega
    rw [if_neg hcond]
    obtain ⟨rest, hrest, _⟩ := getRSSFeedLoop_isSome outcomes maxRetries 1
      (by omega) (by omega)
    exact ⟨_, rest.waits, by rw [hrest]; rfl, rfl⟩
  · by_cases hs : s = ""
    · subst hs
      exact absurd hpi (by simp [jsParseInt])
    · simp [delaySeconds, hra, hs, hpi]
  · simp [delaySeconds, hra]
  · by_cases hs : s = ""
    · simp [delaySeconds, hra, hs]
    · simp [delaySeconds, hra, hs, hpi]

/-- Witness for claim C1: one 429 then success gives 2 attempts; seven 429s
give the last error after exactly 7 attempts. -/
theorem getRSSFeed_retry_budget_witness :
    getRSSFeed outcomesA = some ⟨.ok 7, 2, [1]⟩ ∧
    getRSSFeed outcomesB = some ⟨.error errMsgW, 7, [30, 30, 30, 30, 30, 30]⟩ := by
  constructor
  · have h := (@getRSSFeed_retry_budget Nat).1 outcomesA (fun _ => err429W) 1 7
      (by decide)
      (fun k hk => by
        have hk0 : k = 0 := by omega
        subst hk0
        exact ⟨rfl, by decide⟩)
      rfl
    exact h.trans rfl
  · have h := ((@getRSSFeed_retry_budget Nat).2 outcomesB (fun _ => errMsgW)
      (fun k _ => ⟨rfl, show is429Error errMsgW = true by decide⟩)).1
    exact h.trans rfl

/-- Witness for claim C2: a 404 propagates after exactly 1 attempt; both a
structured-status 429 and a message-only 429 are retried. -/
theorem getRSSFeed_retry_iff_429_witness :
    getRSSFeed outcomesC = some ⟨.error err404W, 1, []⟩ ∧
    (∃ r, getRSSFeed outcomesA = some r ∧ 2 ≤ r.attempts) ∧
    (∃ r, getRSSFeed outcomesB = some r ∧ 2 ≤ r.attempts) := by
  refine ⟨?_, ?_, ?_⟩
  · exact (@getRSSFeed_retry_iff_429 Nat).1 outcomesC err404W rfl (by decide)
  · exact (@getRSSFeed_retry_iff_429 Nat).2.1 outcomesA err429W rfl (by decide)
  · exact (@getRSSFeed_retry_iff_429 Nat).2.1 outcomesB errMsgW rfl (by decide)

/-- Witness for claim C3: the first wait honors the `retry-after: 1` hint;
a missing or non-numeric hint defaults to 30 seconds. -/
theorem getRSSFeed_backoff_duration_witness :
    (∃ r rest, getRSSFeed outcomesA = some r ∧ r.waits = delaySeconds err429W :: rest) ∧
    delaySeconds err429W = 1 ∧
    delaySeconds errMsgW = 30 ∧
    delaySeconds errBadHintW = 30 := by
  refine ⟨?_, ?_, ?_, ?_⟩
  · exact (@getRSSFeed_backoff_duration Nat).1 outcomesA err429W rfl (by decide)
  · exact (@getRSSFeed_backoff_duration Nat).2.1 err429W "1" 1 rfl (by decide)
  · exact (@getRSSFeed_backoff_duration Nat).2.2.1 errMsgW rfl
  · exact (@getRSSFeed_backoff_duration Nat).2.2.2 errBadHintW "soon" rfl (by decide)

/-! ### Claim theorems for the lookback window -/

/-- Counterexample to claim C4: with the environment variable set to the
non-numeric value `"abc"`, the lookback value is `NaN` (no integer), not the
literal default 10. -/
theorem MAX_DAYS_nonnumeric_not_ten :
    MAX_DAYS (some "abc") = none ∧ MAX_DAYS (some "abc") ≠ some 10 := by decide

/-- Claim C4 (amended): the lookback window is `parseInt` of the environment
value, with the literal `"10"` substituted only when the variable is unset or
empty; it equals 10 in those two cases, while a set, non-empty, non-numeric
value yields `NaN` rather than the default. -/
theorem MAX_DAYS_default :
    MAX_DAYS none = some 10 ∧ MAX_DAYS (some "") = some 10 ∧
    ∀ s, s ≠ "" → jsParseInt s = none → MAX_DAYS (some s) = none := by
  refine ⟨by decide, by decide, fun s hs hpi => ?_⟩
  simp [MAX_DAYS, hs, hpi]

/-- Witness for the amended claim C4 at the unset, empty and `"xyz"` values. -/
theorem MAX_DAYS_default_witness :
    MAX_DAYS none = some 10 ∧ MAX_DAYS (some "") = some 10 ∧
    MAX_DAYS (some "xyz") = none :=
  ⟨MAX_DAYS_default.1, MAX_DAYS_default.2.1,
    MAX_DAYS_default.2.2 "xyz" (by decide) (by decide)⟩

/-! ### Lemmas about the aggregator -/

/-- The per-item push loop appends the per-item article lists in item order. -/
theorem feedNewsLoop_eq (scrape : String → List News) :
    ∀ (items : List FeedItem) (acc : List NewsWithDate),
      feedNewsLoop scrape items acc = acc ++ (items.map (itemArticles scrape)).flatten := by
  intro items
  induction items with
  | nil => intro acc; simp [feedNewsLoop]
  | cons it rest ih => intro acc; simp [feedNewsLoop, ih]

/-- The per-topic loop of `fetchFeeds`, when it completes, has appended each
topic's doubly-sorted result list to the accumulator in topic order. -/
theorem fetchFeedsLoop_ok_eq (pd : String → Option Int) (cutoffDate : Int)
    (scrape : String → List News) (getFeedItems : String → List FeedItem) :
    ∀ (feeds : List String) (acc L : List NewsWithDate),
      fetchFeedsLoop pd cutoffDate scrape getFeedItems feeds acc = .ok L →
      L = acc ++ (feeds.map (fun feedName =>
        jsSort (sortLe pd) (jsSort (sortLe pd)
          (processTopic pd cutoffDate scrape (getFeedItems feedName))))).flatten := by
  intro feeds
  induction feeds with
  | nil =>
    intro acc L h
    simp only [fetchFeedsLoop] at h
    cases h
    simp
  | cons feedName rest ih =>
    intro acc L h
    simp only [fetchFeedsLoop] at h
    rcases hw : writeRssFeed pd feedName
        (processTopic pd cutoffDate scrape (getFeedItems feedName)) with msg | pr
    · rw [hw] at h
      simp at h
    · rw [hw] at h
      rcases hw2 : writeHtmlFeed pd feedName
          (jsSort (sortLe pd) (processTopic pd cutoffDate scrape (getFeedItems feedName))) 50
        with msg2 | pr2
      · rw [hw2] at h
        simp at h
      · rw [hw2] at h
        simp only [] at h
        have hrec := ih _ L h
        rw [hrec]
        simp [List.append_assoc]

/-! ### Claim theorems for the aggregator -/

/-- Counterexample to claim C5: with one topic whose two surviving items are
oldest-first, the combined feed handed to the final write is the per-topic
date-sorted list, not the concatenation of appended-order result lists. -/
theorem fetchFeeds_not_append_order :
    fetchFeeds pdW 0 scrapeW getFeedItemsW ["t"] ≠
      Except.ok (specCombined pdW 0 scrapeW getFeedItemsW ["t"]) := by
  intro h
  have h1 : fetchFeeds pdW 0 scrapeW getFeedItemsW ["t"] = .ok combinedW := rfl
  have h2 : combinedW = specCombined pdW 0 scrapeW getFeedItemsW ["t"] :=
    Except.ok.inj (h1.symm.trans h)
  exact absurd h2 (by decide)

/-- Claim C5 (amended): when the run completes, the combined feed handed to
the final write is the concatenation, in configured topic order, of each
topic's result list as mutated in place by that topic's write steps — i.e.
sorted by publish date, newest first — rather than in originally appended
order. -/
theorem fetchFeeds_combined (pd : String → Option Int) (cutoffDate : Int)
    (scrape : String → List News) (getFeedItems : String → List FeedItem)
    (feeds : List String) (L : List NewsWithDate)
    (h : fetchFeeds pd cutoffDate scrape getFeedItems feeds = .ok L) :
    L = (feeds.map (fun feedName =>
      jsSort (sortLe pd) (jsSort (sortLe pd)
        (processTopic pd cutoffDate scrape (getFeedItems feedName))))).flatten := by
  simpa using fetchFeedsLoop_ok_eq pd cutoffDate scrape getFeedItems feeds [] L h

/-- Witness for the amended claim C5 at a one-topic run with oldest-first
items. -/
theorem fetchFeeds_combined_witness :
    fetchFeeds pdW 0 scrapeW getFeedItemsW ["t"] = .ok combinedW ∧
    combinedW = (["t"].map (fun feedName =>
      jsSort (sortLe pdW) (jsSort (sortLe pdW)
        (processTopic pdW 0 scrapeW (getFeedItemsW feedName))))).flatten :=
  ⟨rfl, fetchFeeds_combined pdW 0 scrapeW getFeedItemsW ["t"] combinedW rfl⟩

/-- Claim C6: the aggregator's date filter keeps exactly the items whose
publish date is parseable and on or after the cutoff, excludes every item
without a parseable date, and preserves the relative order of the survivors. -/
theorem recentItems_spec (pd : String → Option Int) (hpd : pd "" = none)
    (cutoffDate : Int) (items : List FeedItem) :
    recentItems pd cutoffDate items = items.filter (specKeep pd cutoffDate) ∧
    (recentItems pd cutoffDate items).Sublist items := by
  have hkeep : keepItem pd cutoffDate = specKeep pd cutoffDate := by
    funext item
    rcases hiso : item.isoDate with _ | s
    · simp [keepItem, specKeep, hiso]
    · by_cases hs : s = ""
      · subst hs
        simp [keepItem, specKeep, hiso, hpd]
      · simp [keepItem, specKeep, hiso, hs]
  refine ⟨?_, ?_⟩
  · rw [recentItems, hkeep]
  · rw [recentItems, hkeep]
    exact List.filter_sublist items

/-- Witness for claim C6: lookback 7 with items aged 2, 10, 5 days plus an
unparseable one keeps exactly the 2- and 5-day items, in order. -/
theorem recentItems_spec_witness :
    recentItems pdW (-7) itemsAgeW = itemsAgeW.filter (specKeep pdW (-7)) ∧
    recentItems pdW (-7) itemsAgeW = [⟨some "u1", some "-2"⟩, ⟨some "u3", some "-5"⟩] :=
  ⟨(recentItems_spec pdW (by decide) (-7) itemsAgeW).1, by decide⟩

/-- Claim C10: a feed item that survives the date filter but whose link is
absent or empty contributes no articles — and the scraper function is never
consulted for it — while processing of the remaining items is unaffected. -/
theorem aggregator_skips_linkless (pd : String → Option Int) (cutoffDate : Int)
    (scrape scrapeOther : String → List News) (item : FeedItem)
    (l1 l2 : List FeedItem)
    (hkeep : keepItem pd cutoffDate item = true)
    (hlink : item.link = none ∨ item.link = some "") :
    itemArticles scrape item = [] ∧
    itemArticles scrapeOther item = itemArticles scrape item ∧
    processTopic pd cutoffDate scrape (l1 ++ item :: l2) =
      processTopic pd cutoffDate scrape (l1 ++ l2) := by
  have hempty : ∀ sc : String → List News, itemArticles sc item = [] := by
    intro sc
    rcases hlink with h | h <;>
      rcases hiso : item.isoDate with _ | d <;>
        simp [itemArticles, h, hiso]
  refine ⟨hempty scrape, (hempty scrapeOther).trans (hempty scrape).symm, ?_⟩
  unfold processTopic recentItems
  rw [feedNewsLoop_eq, feedNewsLoop_eq,
    List.filter_append, List.filter_append, List.filter_cons_of_pos hkeep]
  simp [hempty scrape]

/-- Witness for claim C10: a linkless item between two linked ones. -/
theorem aggregator_skips_linkless_witness :
    itemArticles scrapeW itemNoLinkW = [] ∧
    itemArticles (fun _ => []) itemNoLinkW = itemArticles scrapeW itemNoLinkW ∧
    processTopic pdW 0 scrapeW
        ([⟨some "a", some "1"⟩] ++ itemNoLinkW :: [⟨some "b", some "2"⟩]) =
      processTopic pdW 0 scrapeW ([⟨some "a", some "1"⟩] ++ [⟨some "b", some "2"⟩]) :=
  aggregator_skips_linkless pdW 0 scrapeW (fun _ => []) itemNoLinkW
    [⟨some "a", some "1"⟩] [⟨some "b", some "2"⟩] (by decide) (Or.inl rfl)

/-! ### Claim theorems for the output writers -/

/-- Claim C9: each output writer, given an empty post list, fails with an
error whose message names the affected topic, and produces no output file
(the contract returns no path/content pair); it never silently succeeds. -/
theorem writers_error_on_empty (pd : String → Option Int) (feedName : String) :
    writeRssFeed pd feedName [] = .error ("No posts found for " ++ feedName) ∧
    writeHtmlFeed pd feedName [] 50 = .error ("No posts found for " ++ feedName) :=
  ⟨rfl, rfl⟩

/-! ### Lemmas about the scraper -/

/-- A truthy string is non-empty. -/
theorem truthy_ne_empty {o : Option String} {s : String} (h : truthy o = some s) :
    s ≠ "" := by
  rcases o with _ | t
  · simp [truthy] at h
  · by_cases ht : t = ""
    · simp [truthy, ht] at h
    · simp [truthy, ht] at h
      subst h
      exact ht

/-- The candidate extraction equals the loop body's falsy-field test. -/
theorem extractArticle_eq (c : H3Cand) :
    extractArticle c =
      if textContent c.node = "" ∨ c.parent.bind (getAttr "href") = none ∨
          c.parent.bind (getAttr "href") = some "" ∨
          (c.gparent.bind querySelectorDiv).map textContent = none ∨
          (c.gparent.bind querySelectorDiv).map textContent = some "" then none
      else some ⟨textContent c.node, (c.parent.bind (getAttr "href")).getD "",
        ((c.gparent.bind querySelectorDiv).map textContent).getD ""⟩ := by
  by_cases ht : textContent c.node = ""
  · simp [extractArticle, truthy, ht]
  · rcases hl : c.parent.bind (getAttr "href") with _ | l
    · simp [extractArticle, truthy, ht, hl]
    · by_cases hl2 : l = ""
      · simp [extractArticle, truthy, ht, hl, hl2]
      · rcases hc : (c.gparent.bind querySelectorDiv).map textContent with _ | co
        · simp [extractArticle, truthy, ht, hl, hl2, hc]
        · by_cases hc2 : co = ""
          · simp [extractArticle, truthy, ht, hl, hl2, hc, hc2]
          · simp [extractArticle, truthy, ht, hl, hl2, hc, hc2]

/-- An extracted article has non-empty title, link and content. -/
theorem extractArticle_fields {c : H3Cand} {n : News}
    (h : extractArticle c = some n) :
    n.title ≠ "" ∧ n.link ≠ "" ∧ n.content ≠ "" := by
  simp only [extractArticle, Option.bind_eq_some, Option.map_eq_some'] at h
  obtain ⟨t, h1, l, h2, co, h3, hn⟩ := h
  subst hn
  exact ⟨truthy_ne_empty h1, truthy_ne_empty h2, truthy_ne_empty h3⟩

/-- The header loop is `filterMap extractArticle` over the accumulator. -/
theorem fetchNewsLoop_eq :
    ∀ (cs : List H3Cand) (acc : List News),
      fetchNewsLoop cs acc = acc ++ cs.filterMap extractArticle := by
  intro cs
  induction cs with
  | nil => intro acc; simp [fetchNewsLoop]
  | cons c rest ih =>
    intro acc
    simp only [fetchNewsLoop, List.filterMap_cons]
    rw [extractArticle_eq c]
    split_ifs with hcond <;> simp [ih]

/-! ### Claim theorems for the scraper -/

/-- Claim C7: `fetchNews` on a parsed page returns exactly one article per
level-3 heading whose title (heading text), link (parent `href`) and content
(first `div` under the grandparent) are all non-empty, in document order of
the headings; candidates missing a field are skipped without shifting the
others, and no partial entry appears. -/
theorem fetchNews_extracts (doc : Dom) :
    fetchNews (.ok doc) = (collectH3 none none doc).filterMap extractArticle ∧
    ∀ n ∈ fetchNews (.ok doc), n.title ≠ "" ∧ n.link ≠ "" ∧ n.content ≠ "" := by
  have h1 : fetchNews (.ok doc) = (collectH3 none none doc).filterMap extractArticle := by
    show fetchNewsLoop (collectH3 none none doc) [] = _
    rw [fetchNewsLoop_eq]
    simp
  refine ⟨h1, fun n hn => ?_⟩
  rw [h1] at hn
  obtain ⟨c, _, hc⟩ := List.mem_filterMap.mp hn
  exact extractArticle_fields hc

/-- Witness for claim C7: a page with one complete candidate and one lacking
a parent `href` yields exactly the complete article. -/
theorem fetchNews_extracts_witness :
    fetchNews (.ok docW) = (collectH3 none none docW).filterMap extractArticle ∧
    fetchNews (.ok docW) = [⟨"T1", "L1", "C1"⟩] ∧
    (⟨"T1", "L1", "C1"⟩ : News).title ≠ "" ∧
    (⟨"T1", "L1", "C1"⟩ : News).link ≠ "" ∧
    (⟨"T1", "L1", "C1"⟩ : News).content ≠ "" :=
  ⟨(fetchNews_extracts docW).1, by decide,
    (fetchNews_extracts docW).2 ⟨"T1", "L1", "C1"⟩ (by decide)⟩

/-- Claim C8: the scraper converts every fetch or parse failure into an empty
result sequence and never propagates it to the caller. -/
theorem fetchNews_error_empty (msg : String) : fetchNews (.error msg) = [] := rfl

end TldrRss
